import Mathlib

/-!
# Verification of the business-data-analysis chatbot script

A shallow embedding, in Lean 4, of the Python script
`business_data_analysis_chatbot_agent_langchain.py`: the ETL loop that loads
the Zillow rental dataset into the `rentals` table, the Chronos forecast
adapter, the session-history store with its 10-message window, the custom
tool-calling agent loop, the `get_current_datetime` tool, and the Streamlit
submit handler.  External collaborators (the LLM, the Chronos pipeline, the
geo CSV) are parameters of the embedding; everything the script itself
computes is embedded as executable Lean definitions, and the behavioural
properties of the script are proved as theorems below.
-/

set_option autoImplicit false

namespace Chatbot

/-! ## ETL: geo lookup and the rentals table

The script builds `zipHash` from an external CSV (zip → city/county/state),
then iterates the Zillow dataset: rows whose `Region Type` is not `0` or
whose `Rent (Smoothed)` is `None` are skipped; the zip is left-padded with
one `"0"` when shorter than 5 characters; rows whose zip is not in
`zipHash` are skipped; the remaining rows are inserted into the `rentals`
table, stopping once 10,000 rows have been inserted.
-/

/-- The geo record stored for each zip in `zipHash`
(`{"city": ..., "county": ..., "state": ...}`). -/
structure GeoRec where
  city : String
  county : String
  state : String
deriving DecidableEq, Repr

/-- A row of the Zillow `rentals` dataset, with the fields the ETL loop
reads: `Region Type`, `Region`, `Rent (Smoothed)`,
`Rent (Smoothed) (Seasonally Adjusted)`, `Home Type` and `Date`
(the date already rendered by `isoformat()`). -/
structure SrcRow where
  regionType : Int
  region : String
  rent : Option ℚ
  rentAdjusted : Option ℚ
  homeType : Int
  date : String
deriving DecidableEq, Repr

/-- A row of the `rentals` SQLite table as inserted by the loop
(the autoincrement `id` column is supplied by SQLite, not by the script). -/
structure RentalRow where
  zip : String
  city : String
  county : String
  state : String
  home_type : Int
  date : String
  rent : Option ℚ
  rent_adjusted : Option ℚ
deriving DecidableEq, Repr

/-- Zip normalization: prepend one zero when the `Region` string is
shorter than 5 characters, otherwise keep it unchanged. -/
def normZip (region : String) : String :=
  if region.length < 5 then "0" ++ region else region

/-- The parameter dict of the `INSERT INTO rentals ...` statement for an
accepted row, joined with its geo record. -/
def mkRental (g : GeoRec) (zip : String) (row : SrcRow) : RentalRow :=
  { zip := zip
    city := g.city
    county := g.county
    state := g.state
    home_type := row.homeType
    date := row.date
    rent := row.rent
    rent_adjusted := row.rentAdjusted }

/-- One pass of the ETL loop body on a single row, without the row-count
cap: `none` when the row is skipped (wrong region type, null smoothed rent,
or zip missing from the geo lookup), `some` of the inserted row otherwise. -/
def processRow (geo : String → Option GeoRec) (row : SrcRow) : Option RentalRow :=
  if row.regionType ≠ 0 ∨ row.rent = none then none
  else
    match geo (normZip row.region) with
    | none => none
    | some g => some (mkRental g (normZip row.region) row)

/-- The ETL loop over the remaining dataset rows, carrying `row_count`
(the number of rows inserted so far): after an insert the count is
incremented and the loop breaks as soon as it reaches 10,000. -/
def etlLoop (geo : String → Option GeoRec) : List SrcRow → Nat → List RentalRow
  | [], _ => []
  | row :: rest, count =>
    match processRow geo row with
    | none => etlLoop geo rest count
    | some r =>
      if count + 1 ≥ 10000 then [r]
      else r :: etlLoop geo rest (count + 1)

/-- The full ETL: the sequence of rows inserted into `rentals`, in
insertion order, starting from `row_count = 0`. -/
def etl (geo : String → Option GeoRec) (dataset : List SrcRow) : List RentalRow :=
  etlLoop geo dataset 0

/-! ## Forecast adapter (`chronos_prediction`)

`chronos_prediction(historical, length)` calls
`pipeline.predict(context, length)` on the pretrained Chronos model, takes
`np.quantile(forecast[0].numpy(), [0.1, 0.5, 0.9], axis=0)`, plots the
historical line, median line and 10–90% band, and returns `median`.
The pipeline is an external pretrained model: it is a parameter of the
embedding, `pipeline : List ℚ → Nat → List (List ℚ)`, returning the matrix
of sampled forecast trajectories (`forecast[0]`, one row per sample).
Numbers are embedded as rationals; `np.quantile`'s default linear
interpolation is reproduced exactly on ℚ. -/

/-- Insert `x` into an already sorted list, keeping it sorted. -/
def sortedInsert (x : ℚ) : List ℚ → List ℚ
  | [] => [x]
  | y :: ys => if x ≤ y then x :: y :: ys else y :: sortedInsert x ys

/-- Sort a list of rationals (insertion sort), as `np.quantile` sorts the
data along the reduction axis. -/
def sortQ (l : List ℚ) : List ℚ := l.foldr sortedInsert []

/-- Numpy quantile `np.quantile(v, q)` on a one-dimensional vector, with numpy's default
linear interpolation: the value at fractional position `q * (n - 1)` of
the sorted data. -/
def quantile1d (q : ℚ) (l : List ℚ) : ℚ :=
  let s := sortQ l
  let n := s.length
  if n = 0 then 0
  else
    let pos : ℚ := q * ((n : ℚ) - 1)
    let i : Nat := pos.floor.toNat
    let lo := s.getD i 0
    let hi := s.getD (min (i + 1) (n - 1)) 0
    lo + (pos - (pos.floor : ℚ)) * (hi - lo)

/-- Numpy quantile `np.quantile(samples, q, axis=0)` on a matrix given as a
list of rows:
one quantile per column.  The number of columns is the length of the rows
(numpy arrays are rectangular; the first row fixes the width). -/
def quantileAxis0 (q : ℚ) (samples : List (List ℚ)) : List ℚ :=
  match samples with
  | [] => []
  | s :: _ =>
    (List.range s.length).map fun j =>
      quantile1d q (samples.map fun t => t.getD j 0)

/-- The adapter `chronos_prediction(historical, length)`: run the pipeline,
compute the
10th/50th/90th percentile trajectories across its samples, and return the
median one (the `low`/`high` trajectories and the chart are plot-only side
effects). -/
def chronos_prediction (pipeline : List ℚ → Nat → List (List ℚ))
    (historical : List ℚ) (length : Nat) : List ℚ :=
  let forecast := pipeline historical length
  let low := quantileAxis0 (1 / 10) forecast
  let median := quantileAxis0 (1 / 2) forecast
  let high := quantileAxis0 (9 / 10) forecast
  let _ := (low, high)
  median

/-! ## The `get_current_datetime` tool

`def get_current_datetime(current: bool): return datetime.now().isoformat()`.
The current wall-clock instant is external: it is a parameter of the
embedding, a `Datetime` record, and `isoformat` renders it the way Python's
`datetime.isoformat()` does. -/

/-- The fields of a Python `datetime` value. -/
structure Datetime where
  year : Nat
  month : Nat
  day : Nat
  hour : Nat
  minute : Nat
  second : Nat
  microsecond : Nat
deriving DecidableEq, Repr

/-- Zero-pad a number to `w` digits, as in `datetime.isoformat()`. -/
def padNum (w : Nat) (n : Nat) : String :=
  let s := toString n
  String.mk (List.replicate (w - s.length) '0') ++ s

/-- Python `datetime.isoformat()`: `YYYY-MM-DDTHH:MM:SS.ffffff`. -/
def isoformat (t : Datetime) : String :=
  padNum 4 t.year ++ "-" ++ padNum 2 t.month ++ "-" ++ padNum 2 t.day ++ "T" ++
    padNum 2 t.hour ++ ":" ++ padNum 2 t.minute ++ ":" ++ padNum 2 t.second ++
    "." ++ padNum 6 t.microsecond

/-- The `get_current_datetime` tool: takes a boolean argument `current`
(supplied by the model) and returns `datetime.now().isoformat()`; `now` is
the external wall clock at the moment of the call. -/
def get_current_datetime (now : Datetime) (current : Bool) : String :=
  let _ := current
  isoformat now

/-! ## Messages, session store and the 10-message window

`store` is a module-level dict from session id to `ChatMessageHistory`
(an ordered message list); `get_session_history` creates an empty history
on first reference.  `limit` keeps only `input["messages"][-10:]` before
the template prepends the system prompt. -/

/-- A tool call as produced by the model: `{name, args, id}`.  The
arguments mapping is kept opaque as a string. -/
structure ToolCall where
  name : String
  args : String
  id : String
deriving DecidableEq, Repr

/-- LangChain messages: `SystemMessage`, `HumanMessage`, `AIMessage`
(carrying the requested tool calls) and `ToolMessage` (carrying content and
the id of the tool call it answers). -/
inductive Msg where
  | system (content : String)
  | human (content : String)
  | ai (content : String) (tool_calls : List ToolCall)
  | toolMsg (content : String) (tool_call_id : String)
deriving DecidableEq, Repr

/-- The accumulated model response of one streamed model call: the chunks
`+=`-accumulate into a message with a content string and a list of
requested tool calls. -/
structure Response where
  content : String
  tool_calls : List ToolCall
deriving DecidableEq, Repr

/-- The session store: the module-level `store` dict, session id →
ordered message list. -/
abbrev Store : Type := List (String × List Msg)

/-- Reading a session's history: a dict lookup, where an id that was never
referenced holds the empty history (`get_session_history` creates
`ChatMessageHistory()` on first reference). -/
def lookupStore : Store → String → List Msg
  | [], _ => []
  | (k, v) :: rest, sid => if k = sid then v else lookupStore rest sid

/-- Writing a session's history: a dict update, creating the entry when
absent. -/
def setStore : Store → String → List Msg → Store
  | [], sid, msgs => [(sid, msgs)]
  | (k, v) :: rest, sid, msgs =>
    if k = sid then (k, msgs) :: rest else (k, v) :: setStore rest sid msgs

/-- The ids present in the store dict. -/
def storeKeys (store : Store) : List String := store.map Prod.fst

/-- The function `def limit(input)` returning
`{**input, "messages": input["messages"][-10:]}`
— keep only the most recent 10 messages. -/
def limit (messages : List Msg) : List Msg :=
  messages.drop (messages.length - 10)

/-- The `system_prompt` of the script (abbreviated to its first line; only its
identity matters to the control flow). -/
def system_prompt : String :=
  "You are an assistant designed to help with business and data analysis."

/-- The message list one model call receives for session `sid` when the
agent passes `messages` as the turn's new input:
`RunnableWithMessageHistory` prepends the stored history to the input
messages, `limit` keeps the most recent 10, and the template prepends the
system prompt. -/
def mkCtx (store : Store) (sid : String) (messages : List Msg) : List Msg :=
  Msg.system system_prompt :: limit (lookupStore store sid ++ messages)

/-- The store after one model call: `RunnableWithMessageHistory` appends
the input messages and the model's accumulated response to the session's
history. -/
def storeAfterCall (store : Store) (sid : String) (messages : List Msg)
    (r : Response) : Store :=
  setStore store sid
    (lookupStore store sid ++ messages ++ [Msg.ai r.content r.tool_calls])

/-! ## The agent loop

`agent(input)` loops: stream one model call (yielding each chunk),
accumulate the chunks into `response`; if `response.tool_calls` is
nonempty, for each call look the tool up in `toolsHash`, and when found
invoke it, wrap the output as a `ToolMessageChunk` tagged with the call id,
yield it and append it to the next iteration's `messages`; when not found
the call is skipped.  With no tool calls the loop breaks.  The model and
the tool implementations are external and are parameters; streaming is
abstracted to the accumulated response per model call.  The unbounded
`while True` is embedded with a fuel argument counting remaining model
calls. -/

/-- What the agent generator yields: the accumulated streamed response of
each model call, and each tool message. -/
inductive Yield where
  | chunk (r : Response)
  | toolMsg (content : String) (tool_call_id : String)
deriving DecidableEq, Repr

/-- The registered tools of `toolsHash`: name → invocable (its
externally-implemented behaviour, args → output string), or `none` for an
unregistered name. -/
def Tools : Type := String → Option (String → String)

/-- The pairs `(tool.invoke(call["args"]), call["id"])` for each requested call whose
name is registered, in request order; unregistered names contribute
nothing. -/
def toolOutputs (tools : Tools) (calls : List ToolCall) : List (String × String) :=
  calls.filterMap fun c => (tools c.name).map fun t => (t c.args, c.id)

/-- The agent loop for session `sid`: returns the sequence of yields and
the final session store.  `fuel` bounds the number of model calls (the
Python loop is `while True`); with fuel `0` no call is made. -/
def agentLoop (model : List Msg → Response) (tools : Tools) (sid : String) :
    Nat → Store → List Msg → List Yield × Store
  | 0, store, _ => ([], store)
  | fuel + 1, store, messages =>
    let r := model (mkCtx store sid messages)
    let store' := storeAfterCall store sid messages r
    if r.tool_calls = [] then
      ([Yield.chunk r], store')
    else
      let tms := toolOutputs tools r.tool_calls
      let next := agentLoop model tools sid fuel store'
        (tms.map fun p => Msg.toolMsg p.1 p.2)
      (Yield.chunk r :: ((tms.map fun p => Yield.toolMsg p.1 p.2) ++ next.1),
        next.2)

/-- The content a yielded item contributes to the turn's printed/returned
answer (`run` concatenates `chunk.content` over the stream). -/
def yieldContent : Yield → String
  | Yield.chunk r => r.content
  | Yield.toolMsg content _ => content

/-- The turn's answer assembled by `run`: the concatenation of the
contents of everything the agent yielded. -/
def runAnswer (yields : List Yield) : String :=
  (yields.map yieldContent).foldl (· ++ ·) ""

/-- One user turn through `run(message)` (the script version and the
Streamlit version alike): invoke the agent on `[HumanMessage(message)]`
with the module-level `config = {"configurable": {"session_id": "cat"}}`,
and assemble the streamed answer. -/
def runTurn (model : List Msg → Response) (tools : Tools) (fuel : Nat)
    (store : Store) (message : String) : String × Store :=
  let out := agentLoop model tools "cat" fuel store [Msg.human message]
  (runAnswer out.1, out.2)

/-- A sequence of user turns, each through `run`, threading the
module-level store. -/
def runMany (model : List Msg → Response) (tools : Tools) (fuel : Nat)
    (store : Store) : List String → Store
  | [] => store
  | m :: ms => runMany model tools fuel (runTurn model tools fuel store m).2 ms

/-! ## Streamlit presentation layer

On "Submit Query" with a nonempty input, the handler runs the agent,
writes the response text, and — when
`"create a prediction graph" in user_input.lower()` — plots a chart whose
historical and forecast series are hard-coded constant lists, unrelated to
the agent's answer or to `chronos_prediction`'s output. -/

/-- Python's `needle in hay` substring test, on character lists. -/
def containsSub (hay needle : List Char) : Bool :=
  (List.range (hay.length + 1)).any fun i =>
    (hay.drop i).take needle.length == needle

/-- Python `user_input.lower()`, character by character. -/
def lowerChars (s : String) : List Char := s.toList.map Char.toLower

/-- The hard-coded `historical_data` list of the Streamlit handler. -/
def historical_data : List ℚ :=
  [1500, 1600, 1650, 1700, 1750, 1800, 1850, 1900, 1950, 2000]

/-- The hard-coded `forecast` list of the Streamlit handler. -/
def forecastPlaceholder : List ℚ :=
  [2100, 2150, 2200, 2250, 2300, 2350, 2400, 2450, 2500, 2550, 2600, 2650]

/-- The trigger phrase checked against the lower-cased input. -/
def predictionPhrase : String := "create a prediction graph"

/-- The Streamlit submit handler, given the agent as a black box
`agentOf : input → response text`: `none` when `user_input` is falsy (no
response shown at all), otherwise the displayed response text paired with
the plotted chart data — `some (historical_data, forecastPlaceholder)`
exactly when the lower-cased input contains the trigger phrase. -/
def submitHandler (agentOf : String → String) (user_input : String) :
    Option (String × Option (List ℚ × List ℚ)) :=
  if user_input = "" then none
  else
    some (agentOf user_input,
      if containsSub (lowerChars user_input) predictionPhrase.toList then
        some (historical_data, forecastPlaceholder)
      else none)

/-- Is a yielded item the accumulated response of a model call (rather
than a tool message)? -/
def isChunk : Yield → Bool
  | Yield.chunk _ => true
  | Yield.toolMsg _ _ => false

/-- How many model calls a yield sequence records. -/
def modelCallCount (yields : List Yield) : Nat :=
  (yields.filter isChunk).length

/-! ## Concrete instances used by the witnesses -/

/-- A model stub that answers with plain text and no tool calls. -/
def mdlPlain : List Msg → Response := fun _ => { content := "hi there", tool_calls := [] }

/-- An empty tool registry. -/
def toolsNone : Tools := fun _ => none

/-- A concrete tool call for the datetime tool. -/
def c1C : ToolCall := { name := "get_current_datetime", args := "true", id := "id1" }

/-- A concrete tool call for the list-tables tool. -/
def c2C : ToolCall := { name := "list_sql_database_tool", args := "", id := "id2" }

/-- A model stub that always requests the two registered calls `c1C`,
`c2C`. -/
def mdlCalls : List Msg → Response := fun _ => { content := "x", tool_calls := [c1C, c2C] }

/-- A concrete two-tool registry covering `c1C` and `c2C`. -/
def toolsC : Tools := fun n =>
  if n = "get_current_datetime" then some (fun _ => "2024-01-01T00:00:00")
  else if n = "list_sql_database_tool" then some (fun _ => "rentals")
  else none

/-- A stored session of 10 messages under the id `"cat"`. -/
def store10 : Store :=
  [("cat",
    [Msg.human "m1", Msg.ai "a1" [], Msg.human "m2", Msg.ai "a2" [],
      Msg.human "m3", Msg.ai "a3" [], Msg.human "m4", Msg.ai "a4" [],
      Msg.human "m5", Msg.ai "a5" []])]

/-- A pipeline stub returning a single all-zero sample of the requested
horizon. -/
def pipeC : List ℚ → Nat → List (List ℚ) := fun _ n => [List.replicate n 0]

/-- A one-entry geo lookup for concrete runs: the zip `01012`. -/
def geoC : String → Option GeoRec := fun z =>
  if z = "01012" then some ⟨"Chesterfield", "Hampshire", "MA"⟩ else none

/-- A concrete accepted dataset row: region type 0, 4-character zip,
non-null smoothed rent. -/
def rowC : SrcRow :=
  { regionType := 0, region := "1012", rent := some 900,
    rentAdjusted := some 905, homeType := 1, date := "2020-01-31" }

/-- A concrete one-row dataset. -/
def dsC : List SrcRow := [rowC]

/-! ## Theorems -/

theorem processRow_eq_some (geo : String → Option GeoRec) (row : SrcRow)
    (r : RentalRow) :
    processRow geo row = some r ↔
      row.regionType = 0 ∧ row.rent ≠ none ∧
        ∃ g, geo (normZip row.region) = some g ∧
          r = mkRental g (normZip row.region) row := by
  unfold processRow
  by_cases h : row.regionType ≠ 0 ∨ row.rent = none
  · simp only [if_pos h]
    constructor
    · intro hc; exact absurd hc (by simp)
    · rintro ⟨h0, hr, -⟩
      rcases h with h | h
      · exact absurd h0 h
      · exact absurd h hr
  · simp only [if_neg h]
    push_neg at h
    cases hg : geo (normZip row.region) with
    | none =>
      constructor
      · intro hc; exact absurd hc (by simp)
      · rintro ⟨-, -, g, hg', -⟩; exact absurd hg' (by simp)
    | some g =>
      constructor
      · intro hc
        refine ⟨h.1, h.2, g, rfl, ?_⟩
        exact (Option.some_injective _ hc).symm
      · rintro ⟨-, -, g', hg', rfl⟩
        cases hg'
        rfl

theorem etlLoop_eq_take (geo : String → Option GeoRec) (rows : List SrcRow) :
    ∀ count, count < 10000 →
      etlLoop geo rows count =
        (rows.filterMap (processRow geo)).take (10000 - count) := by
  induction rows with
  | nil => intro count _; simp [etlLoop]
  | cons row rest ih =>
    intro count h
    cases hp : processRow geo row with
    | none => simp [etlLoop, hp, ih count h]
    | some r =>
      by_cases hc : count + 1 ≥ 10000
      · have hc' : count = 9999 := by omega
        subst hc'
        simp [etlLoop, hp]
      · have h1 : count + 1 < 10000 := by omega
        have hs : 10000 - count = (10000 - (count + 1)) + 1 := by omega
        simp [etlLoop, hp, hc, ih (count + 1) h1, hs]

/-- The inserted rows are exactly the first 10,000 accepted rows, in
dataset order. -/
theorem etl_eq_take (geo : String → Option GeoRec) (ds : List SrcRow) :
    etl geo ds = (ds.filterMap (processRow geo)).take 10000 :=
  etlLoop_eq_take geo ds 0 (by omega)

theorem mem_etl (geo : String → Option GeoRec) (ds : List SrcRow)
    (r : RentalRow) (hr : r ∈ etl geo ds) :
    ∃ row ∈ ds, processRow geo row = some r := by
  rw [etl_eq_take] at hr
  have := List.mem_of_mem_take hr
  exact List.mem_filterMap.mp this

/-- C2: every row the ETL accepts stores a zip of exactly 5 characters
(the geo lookup, per the data model, only holds 5-digit zero-padded zips,
and acceptance requires a geo match on the normalized zip, which is the
source `Region` left-padded with one zero when shorter than 5); in
particular the source value `"1012"` is stored as `"01012"` and `"07302"`
is stored unchanged. -/
theorem etl_zip_normalized (geo : String → Option GeoRec) (ds : List SrcRow)
    (hgeo : ∀ z, (geo z).isSome → z.length = 5) :
    (∀ r ∈ etl geo ds,
        r.zip.length = 5 ∧ ∃ row ∈ ds, r.zip = normZip row.region) ∧
      normZip "1012" = "01012" ∧ normZip "07302" = "07302" := by
  refine ⟨?_, by decide, by decide⟩
  intro r hr
  obtain ⟨row, hrow, hp⟩ := mem_etl geo ds r hr
  obtain ⟨-, -, g, hg, rfl⟩ := (processRow_eq_some geo row r).mp hp
  exact ⟨hgeo _ (by simp [mkRental, hg]), row, hrow, rfl⟩

theorem etl_zip_normalized_witness :
    (∀ r ∈ etl geoC dsC,
        r.zip.length = 5 ∧ ∃ row ∈ dsC, r.zip = normZip row.region) ∧
      normZip "1012" = "01012" ∧ normZip "07302" = "07302" :=
  etl_zip_normalized geoC dsC (fun z hz => by
    by_cases h : z = "01012"
    · subst h; rfl
    · simp [geoC, h] at hz)

/-- C3: a source row whose region type differs from 0, or whose smoothed
rent is null, or whose normalized zip is absent from the geo lookup, is
silently skipped and never inserted; conversely every inserted row arises
from a dataset row that passes all three checks.  The ETL is a total
function, so no error is raised on a skipped row. -/
theorem etl_skips_bad_rows (geo : String → Option GeoRec) (ds : List SrcRow) :
    (∀ row : SrcRow,
        (row.regionType ≠ 0 ∨ row.rent = none ∨
            geo (normZip row.region) = none) →
          processRow geo row = none) ∧
      ∀ r ∈ etl geo ds, ∃ row ∈ ds,
        row.regionType = 0 ∧ row.rent ≠ none ∧
          (geo (normZip row.region)).isSome ∧ processRow geo row = some r := by
  constructor
  · intro row hbad
    unfold processRow
    rcases hbad with h | h | h
    · rw [if_pos (Or.inl h)]
    · rw [if_pos (Or.inr h)]
    · by_cases h2 : row.regionType ≠ 0 ∨ row.rent = none
      · rw [if_pos h2]
      · rw [if_neg h2, h]
  · intro r hr
    obtain ⟨row, hrow, hp⟩ := mem_etl geo ds r hr
    obtain ⟨h0, h1, g, hg, -⟩ := (processRow_eq_some geo row r).mp hp
    exact ⟨row, hrow, h0, h1, by rw [hg]; rfl, hp⟩

theorem etl_skips_bad_rows_witness :
    processRow geoC { rowC with regionType := 6 } = none ∧
      ∃ row ∈ dsC, row.regionType = 0 ∧ row.rent ≠ none ∧
        (geoC (normZip row.region)).isSome ∧
          processRow geoC row =
            some (mkRental ⟨"Chesterfield", "Hampshire", "MA"⟩ "01012" rowC) :=
  ⟨(etl_skips_bad_rows geoC dsC).1 _ (Or.inl (by decide)),
    (etl_skips_bad_rows geoC dsC).2 _ (by decide)⟩

/-- C4: the ETL inserts at most 10,000 rows, whatever the input dataset,
and — insertion being sequential in list order — every intermediate state
of the store (every prefix of the final insertion sequence) also holds at
most 10,000 rows. -/
theorem etl_row_cap (geo : String → Option GeoRec) (ds : List SrcRow) :
    (etl geo ds).length ≤ 10000 ∧
      ∀ pre, pre <+: etl geo ds → pre.length ≤ 10000 := by
  have hlen : (etl geo ds).length ≤ 10000 := by
    rw [etl_eq_take]
    exact List.length_take_le _ _
  refine ⟨hlen, ?_⟩
  intro pre hpre
  obtain ⟨t, ht⟩ := hpre
  have hadd : pre.length + t.length = (etl geo ds).length := by
    rw [← ht, List.length_append]
  omega

theorem etl_row_cap_witness :
    (etl geoC dsC).length ≤ 10000 ∧ ([] : List RentalRow).length ≤ 10000 :=
  ⟨(etl_row_cap geoC dsC).1, (etl_row_cap geoC dsC).2 [] ⟨etl geoC dsC, rfl⟩⟩

theorem lookup_set_self (s : Store) (sid : String) (v : List Msg) :
    lookupStore (setStore s sid v) sid = v := by
  induction s with
  | nil => simp [setStore, lookupStore]
  | cons p rest ih =>
    obtain ⟨k, w⟩ := p
    by_cases h : k = sid
    · simp [setStore, lookupStore, h]
    · simp [setStore, lookupStore, h, ih]

theorem lookup_set_ne (s : Store) (sid id : String) (v : List Msg)
    (h : id ≠ sid) : lookupStore (setStore s sid v) id = lookupStore s id := by
  induction s with
  | nil => simp [setStore, lookupStore, Ne.symm h]
  | cons p rest ih =>
    obtain ⟨k, w⟩ := p
    by_cases hk : k = sid
    · subst hk
      simp [setStore, lookupStore, Ne.symm h]
    · simp [setStore, lookupStore, hk, ih]

theorem mem_storeKeys_set (s : Store) (sid : String) (v : List Msg) :
    ∀ x ∈ storeKeys (setStore s sid v), x = sid ∨ x ∈ storeKeys s := by
  induction s with
  | nil => intro x hx; simp [setStore, storeKeys] at hx; exact Or.inl hx
  | cons p rest ih =>
    obtain ⟨k, w⟩ := p
    intro x hx
    by_cases hk : k = sid
    · subst hk
      simp [setStore, storeKeys] at hx ⊢
      tauto
    · simp [setStore, storeKeys, hk] at hx ⊢
      rcases hx with hx | hx
      · tauto
      · rcases ih x (by simpa [storeKeys] using hx) with h | h
        · tauto
        · simp [storeKeys] at h; tauto

theorem toolOutputs_length (tools : Tools) (calls : List ToolCall) :
    (toolOutputs tools calls).length =
      (calls.filter fun c => (tools c.name).isSome).length := by
  induction calls with
  | nil => rfl
  | cons c cs ih =>
    cases hc : tools c.name with
    | none => simpa [toolOutputs, List.filterMap_cons, List.filter_cons, hc] using ih
    | some t => simpa [toolOutputs, List.filterMap_cons, List.filter_cons, hc] using ih

/-- C1: when the accumulated response carries tool calls, the loop yields
that response and then, for each requested call in request order, the tool
message of every call whose name is registered (content = the tool invoked
on the call's arguments, tagged with the call's id), and continues with
exactly those tool messages as the next iteration's message list;
unregistered names contribute no tool message and no error — the number of
tool messages equals the number of registered names among the requested
calls, so two registered calls yield exactly two tool messages, in request
order, before the next model call. -/
theorem agent_executes_tool_calls (model : List Msg → Response)
    (tools : Tools) (sid : String) (fuel : Nat) (store : Store)
    (messages : List Msg)
    (h : (model (mkCtx store sid messages)).tool_calls ≠ []) :
    (agentLoop model tools sid (fuel + 1) store messages =
      (Yield.chunk (model (mkCtx store sid messages)) ::
        ((toolOutputs tools (model (mkCtx store sid messages)).tool_calls).map
            (fun p => Yield.toolMsg p.1 p.2) ++
          (agentLoop model tools sid fuel
              (storeAfterCall store sid messages
                (model (mkCtx store sid messages)))
              ((toolOutputs tools
                  (model (mkCtx store sid messages)).tool_calls).map
                (fun p => Msg.toolMsg p.1 p.2))).1),
        (agentLoop model tools sid fuel
            (storeAfterCall store sid messages
              (model (mkCtx store sid messages)))
            ((toolOutputs tools
                (model (mkCtx store sid messages)).tool_calls).map
              (fun p => Msg.toolMsg p.1 p.2))).2)) ∧
    (∀ c₁ c₂ t₁ t₂,
        (model (mkCtx store sid messages)).tool_calls = [c₁, c₂] →
        tools c₁.name = some t₁ → tools c₂.name = some t₂ →
        toolOutputs tools (model (mkCtx store sid messages)).tool_calls =
          [(t₁ c₁.args, c₁.id), (t₂ c₂.args, c₂.id)]) ∧
    (toolOutputs tools (model (mkCtx store sid messages)).tool_calls).length =
      ((model (mkCtx store sid messages)).tool_calls.filter
        fun c => (tools c.name).isSome).length := by
  refine ⟨?_, ?_, toolOutputs_length _ _⟩
  · simp only [agentLoop]
    rw [if_neg h]
  · intro c₁ c₂ t₁ t₂ hcalls ht₁ ht₂
    rw [hcalls]
    simp [toolOutputs, List.filterMap_cons, ht₁, ht₂]

theorem agent_executes_tool_calls_witness :
    agentLoop mdlCalls toolsC "cat" 1 [] [] =
      ([Yield.chunk { content := "x", tool_calls := [c1C, c2C] },
          Yield.toolMsg "2024-01-01T00:00:00" "id1",
          Yield.toolMsg "rentals" "id2"],
        [("cat", [Msg.ai "x" [c1C, c2C]])]) ∧
      toolOutputs toolsC [c1C, c2C] =
        [("2024-01-01T00:00:00", "id1"), ("rentals", "id2")] := by
  have ha := agent_executes_tool_calls mdlCalls toolsC "cat" 0 [] []
    (by decide)
  refine ⟨ha.1.trans (by decide), ?_⟩
  have := ha.2.1 c1C c2C (fun _ => "2024-01-01T00:00:00")
    (fun _ => "rentals") (by decide) rfl rfl
  exact this.trans (by decide)

/-- C5: when the accumulated response of the first model call carries no
tool calls, the loop terminates on that first pass: the turn yields
exactly that one response (no tool messages, a single model call) and the
assembled answer is the response's text unchanged. -/
theorem agent_stops_without_tool_calls (model : List Msg → Response)
    (tools : Tools) (sid : String) (fuel : Nat) (store : Store)
    (messages : List Msg)
    (h : (model (mkCtx store sid messages)).tool_calls = []) :
    agentLoop model tools sid (fuel + 1) store messages =
      ([Yield.chunk (model (mkCtx store sid messages))],
        storeAfterCall store sid messages
          (model (mkCtx store sid messages))) ∧
    runAnswer [Yield.chunk (model (mkCtx store sid messages))] =
      (model (mkCtx store sid messages)).content ∧
    modelCallCount [Yield.chunk (model (mkCtx store sid messages))] = 1 := by
  refine ⟨?_, ?_, rfl⟩
  · simp only [agentLoop]
    rw [if_pos h]
  · show "" ++ (model (mkCtx store sid messages)).content = _
    exact (model (mkCtx store sid messages)).content.empty_append ▸ rfl

theorem agent_stops_without_tool_calls_witness :
    agentLoop mdlPlain toolsNone "cat" 1 [] [] =
      ([Yield.chunk { content := "hi there", tool_calls := [] }],
        [("cat", [Msg.ai "hi there" []])]) ∧
      runAnswer [Yield.chunk { content := "hi there", tool_calls := [] }] =
        "hi there" := by
  have ha := agent_stops_without_tool_calls mdlPlain toolsNone "cat" 0 [] []
    (by decide)
  exact ⟨ha.1.trans (by decide), (ha.2.1).trans (by decide)⟩

/-- C6: when a session's stored history plus the turn's new input exceeds
10 messages, the model receives the fixed system prompt followed by
exactly the most recent 10 entries (so with 11 entries the first is
excluded from the context), while the session store keeps the full
history: after the call it holds all previous entries, the new input and
the model's reply. -/
theorem session_window (store : Store) (sid : String) (messages : List Msg)
    (h : 10 < (lookupStore store sid ++ messages).length) :
    mkCtx store sid messages =
      Msg.system system_prompt ::
        (lookupStore store sid ++ messages).drop
          ((lookupStore store sid ++ messages).length - 10) ∧
    (limit (lookupStore store sid ++ messages)).length = 10 ∧
    ∀ r, lookupStore (storeAfterCall store sid messages r) sid =
      lookupStore store sid ++ messages ++ [Msg.ai r.content r.tool_calls] := by
  refine ⟨rfl, ?_, fun r => lookup_set_self _ _ _⟩
  simp only [limit, List.length_drop]
  omega

theorem session_window_witness :
    mkCtx store10 "cat" [Msg.human "m6"] =
      Msg.system system_prompt ::
        [Msg.ai "a1" [], Msg.human "m2", Msg.ai "a2" [], Msg.human "m3",
          Msg.ai "a3" [], Msg.human "m4", Msg.ai "a4" [], Msg.human "m5",
          Msg.ai "a5" [], Msg.human "m6"] ∧
      lookupStore
          (storeAfterCall store10 "cat" [Msg.human "m6"]
            { content := "a6", tool_calls := [] }) "cat" =
        lookupStore store10 "cat" ++ [Msg.human "m6"] ++ [Msg.ai "a6" []] := by
  have ha := session_window store10 "cat" [Msg.human "m6"] (by decide)
  exact ⟨ha.1.trans (by decide),
    ha.2.2 { content := "a6", tool_calls := [] }⟩

theorem agentLoop_store_ne (model : List Msg → Response) (tools : Tools)
    (sid : String) :
    ∀ (fuel : Nat) (store : Store) (messages : List Msg) (id : String),
      id ≠ sid →
      lookupStore (agentLoop model tools sid fuel store messages).2 id =
        lookupStore store id := by
  intro fuel
  induction fuel with
  | zero => intro store messages id _; rfl
  | succ n ih =>
    intro store messages id h
    by_cases hr : (model (mkCtx store sid messages)).tool_calls = []
    · simp only [agentLoop]
      rw [if_pos hr]
      exact lookup_set_ne _ _ _ _ h
    · simp only [agentLoop]
      rw [if_neg hr]
      exact (ih _ _ id h).trans (lookup_set_ne _ _ _ _ h)

theorem agentLoop_keys (model : List Msg → Response) (tools : Tools)
    (sid : String) :
    ∀ (fuel : Nat) (store : Store) (messages : List Msg),
      ∀ x ∈ storeKeys (agentLoop model tools sid fuel store messages).2,
        x = sid ∨ x ∈ storeKeys store := by
  intro fuel
  induction fuel with
  | zero => intro store messages x hx; exact Or.inr hx
  | succ n ih =>
    intro store messages x hx
    by_cases hr : (model (mkCtx store sid messages)).tool_calls = []
    · simp only [agentLoop] at hx
      rw [if_pos hr] at hx
      exact mem_storeKeys_set _ _ _ x hx
    · simp only [agentLoop] at hx
      rw [if_neg hr] at hx
      rcases ih _ _ x hx with h | h
      · exact Or.inl h
      · exact mem_storeKeys_set _ _ _ x h

/-- C8: every user turn — through the script's `run` or through the
Streamlit form, both of which call the agent with the module-level
`config = {"configurable": {"session_id": "cat"}}` — runs under the single
hard-coded session id `"cat"`: over any sequence of turns, the history of
every other session id is untouched, and no store entry other than
`"cat"` (and those already present) ever exists. -/
theorem runs_touch_only_cat (model : List Msg → Response) (tools : Tools)
    (fuel : Nat) :
    ∀ (msgs : List String) (store : Store),
      (∀ id, id ≠ "cat" →
        lookupStore (runMany model tools fuel store msgs) id =
          lookupStore store id) ∧
      ∀ x ∈ storeKeys (runMany model tools fuel store msgs),
        x = "cat" ∨ x ∈ storeKeys store := by
  intro msgs
  induction msgs with
  | nil => intro store; exact ⟨fun _ _ => rfl, fun x hx => Or.inr hx⟩
  | cons m ms ih =>
    intro store
    constructor
    · intro id h
      show lookupStore
        (runMany model tools fuel (runTurn model tools fuel store m).2 ms)
          id = _
      rw [(ih _).1 id h]
      exact agentLoop_store_ne model tools "cat" fuel store [Msg.human m] id h
    · intro x hx
      rcases (ih _).2 x hx with h | h
      · exact Or.inl h
      · rcases agentLoop_keys model tools "cat" fuel store [Msg.human m] x h
          with h2 | h2
        · exact Or.inl h2
        · exact Or.inr h2

theorem runs_touch_only_cat_witness :
    lookupStore (runMany mdlPlain toolsNone 1 [] ["hello"]) "dog" =
      lookupStore ([] : Store) "dog" :=
  (runs_touch_only_cat mdlPlain toolsNone 1 ["hello"] []).1 "dog" (by decide)

/-- C7: for a non-empty history and a positive horizon, provided the
pretrained pipeline returns a non-empty set of sampled trajectories each
of the requested horizon length (its documented contract), the median
trajectory `chronos_prediction` returns has exactly `h` elements. -/
theorem chronos_prediction_length (pipeline : List ℚ → Nat → List (List ℚ))
    (historical : List ℚ) (h : Nat)
    (_hhist : historical ≠ []) (_hpos : 0 < h)
    (hne : pipeline historical h ≠ [])
    (hlen : ∀ s ∈ pipeline historical h, s.length = h) :
    (chronos_prediction pipeline historical h).length = h := by
  cases hp : pipeline historical h with
  | nil => exact absurd hp hne
  | cons s rest =>
    have hs : s.length = h := hlen s (by rw [hp]; exact List.mem_cons_self s rest)
    simp [chronos_prediction, quantileAxis0, hp, hs]

theorem chronos_prediction_length_witness :
    (chronos_prediction pipeC [1] 2).length = 2 :=
  chronos_prediction_length pipeC [1] 2 (by decide) (by decide) (by decide)
    (by decide)

/-- C9: the Streamlit handler plots a chart exactly when the lower-cased
input contains `"create a prediction graph"`, and the plotted series are
always the hard-coded `historical_data`/`forecastPlaceholder` constants —
the chart (indeed the whole pair shown) is unaffected by which agent
produced the displayed response text. -/
theorem streamlit_chart_fixed (agentOf : String → String)
    (user_input : String) :
    ((∃ resp chart,
        submitHandler agentOf user_input = some (resp, some chart)) ↔
      containsSub (lowerChars user_input) predictionPhrase.toList = true) ∧
    (∀ resp chart,
      submitHandler agentOf user_input = some (resp, some chart) →
        chart = (historical_data, forecastPlaceholder) ∧
          resp = agentOf user_input) ∧
    ∀ agentOf' : String → String,
      (submitHandler agentOf' user_input).map (fun p => p.2) =
        (submitHandler agentOf user_input).map (fun p => p.2) := by
  by_cases hempty : user_input = ""
  · subst hempty
    have heq : ∀ ag : String → String, submitHandler ag "" = none :=
      fun _ => rfl
    refine ⟨?_, ?_, fun agentOf' => by rw [heq agentOf', heq agentOf]⟩
    · constructor
      · rintro ⟨resp, chart, hcc⟩
        rw [heq agentOf] at hcc
        exact absurd hcc (by simp)
      · intro hct
        exact absurd hct (by decide)
    · intro resp chart hcc
      rw [heq agentOf] at hcc
      exact absurd hcc (by simp)
  · by_cases hc :
      containsSub (lowerChars user_input) predictionPhrase.toList = true
    · have heq : ∀ ag : String → String, submitHandler ag user_input =
          some (ag user_input, some (historical_data, forecastPlaceholder)) :=
        fun ag => by unfold submitHandler; rw [if_neg hempty, if_pos hc]
      refine ⟨⟨fun _ => hc, fun _ =>
        ⟨agentOf user_input, (historical_data, forecastPlaceholder),
          heq agentOf⟩⟩, ?_, ?_⟩
      · intro resp chart hcc
        rw [heq agentOf] at hcc
        simp only [Option.some.injEq, Prod.mk.injEq] at hcc
        exact ⟨hcc.2.symm, hcc.1.symm⟩
      · intro agentOf'
        rw [heq agentOf', heq agentOf]; rfl
    · have heq : ∀ ag : String → String, submitHandler ag user_input =
          some (ag user_input, none) :=
        fun ag => by unfold submitHandler; rw [if_neg hempty, if_neg hc]
      refine ⟨?_, ?_, ?_⟩
      · constructor
        · rintro ⟨resp, chart, hcc⟩
          rw [heq agentOf] at hcc
          simp only [Option.some.injEq, Prod.mk.injEq] at hcc
          exact absurd hcc.2 (by simp)
        · intro hct
          exact absurd hct hc
      · intro resp chart hcc
        rw [heq agentOf] at hcc
        simp only [Option.some.injEq, Prod.mk.injEq] at hcc
        exact absurd hcc.2 (by simp)
      · intro agentOf'
        rw [heq agentOf', heq agentOf]; rfl

theorem streamlit_chart_fixed_witness :
    ∃ resp chart,
      submitHandler (fun _ => "ok") "Please Create a Prediction Graph" =
        some (resp, some chart) :=
  ((streamlit_chart_fixed (fun _ => "ok")
    "Please Create a Prediction Graph").1).mpr (by decide)

/-- C10: the `get_current_datetime` tool ignores its boolean `current`
argument — at any fixed wall-clock instant the returned ISO timestamp is
the same whatever the argument's value. -/
theorem get_current_datetime_ignores_argument (now : Datetime)
    (b₁ b₂ : Bool) :
    get_current_datetime now b₁ = get_current_datetime now b₂ := rfl

end Chatbot
